import Mathlib

/-!
# Verification of `utility`: cached URL fetching and session wrapping

Shallow embedding of `geturl.go` (`Geturl`) and `sessions.go`
(`WithSession`, `sessionGarbageCollectionWrapper`).

The external collaborators (datastore, HTTP client, clock, session manager,
task queue) are not part of the repository.  Each call into them is modelled
by the outcome it delivers, supplied by an environment record, and by an
effect appended to a trace, so that statements such as "performs no remote
GET" are statements about the trace.
-/

namespace Utility

/-! ## Time -/

/-- An instant, in nanoseconds on the clock's axis (`time.Time`). -/
abbrev Time := Int

/-- A span of time in nanoseconds (`time.Duration`, an int64). -/
abbrev Duration := Int

/-- Largest `time.Duration`. -/
def maxDuration : Duration := 2 ^ 63 - 1

/-- Smallest `time.Duration`. -/
def minDuration : Duration := -(2 ^ 63)

/-- Go's `Time.Sub`: the difference `t - u`, saturated to the int64 range of
`time.Duration`. -/
def timeSub (t u : Time) : Duration :=
  if t - u > maxDuration then maxDuration
  else if t - u < minDuration then minDuration
  else t - u

/-- Go's `time.Since(t)`, i.e. `time.Now().Sub(t)`, with the clock reading
`now` made explicit. -/
def timeSince (now t : Time) : Duration := timeSub now t

/-- Go's `time.Duration(30) * time.Minute`. -/
def minutes (n : Int) : Duration := n * 60 * 1000000000

/-! ## geturl.go -/

/-- A byte sequence (`[]byte`). -/
abbrev Bytes := List UInt8

/-- Errors delivered by the collaborators. -/
inductive GoError where
  /-- `datastore.Done`: the query iterator has no (more) results. -/
  | done
  /-- Any other datastore failure (timeout, unavailable, ...). -/
  | datastore
  /-- `client.Get` failed (network or protocol error). -/
  | transport
  /-- `ioutil.ReadAll(resp.Body)` failed. -/
  | bodyRead
  deriving DecidableEq, Repr

/-- The entity stored per URL (`type webCache struct`). -/
structure webCache where
  URL : String
  Content : Bytes
  Time : Time
  deriving DecidableEq, Repr

/-- The zero value of `webCache` (`var cached webCache`). -/
def webCache.zero : webCache := ⟨"", [], 0⟩

/-- A complete datastore key of kind `WebCache`, identified by its numeric id. -/
abbrev Key := Nat

/-- The `WebCache` kind of the datastore: the stored entities with their keys,
in the order in which a query iterates over them. -/
abbrev Datastore := List (Key × webCache)

/-- The datastore call `datastore.NewQuery("WebCache").Filter("URL = ", url).Run(ctx)`
followed by `t.Next(&cached)`: the key and entity of the first match, or a nil
key and an error.  `queryErr` is the failure of the query itself, if any;
without one, an empty result is reported as `datastore.Done`. -/
def queryNext (ds : Datastore) (url : String) (queryErr : Option GoError) :
    Option Key × webCache × Option GoError :=
  match queryErr with
  | some e => (none, webCache.zero, some e)
  | none =>
    match ds.find? (fun p => p.2.URL == url) with
    | some (k, c) => (some k, c, none)
    | none => (none, webCache.zero, some GoError.done)

/-- The datastore call `datastore.Put(ctx, key, &c)` with a complete key: the
entity stored under `key` is replaced, or added when the key holds none. -/
def datastorePut (ds : Datastore) (key : Key) (c : webCache) : Datastore :=
  if ds.any (fun p => p.1 == key) then
    ds.map (fun p => if p.1 == key then (key, c) else p)
  else ds ++ [(key, c)]

/-- What `client.Get(url)` hands back when it does not fail: the status code
and the outcome of reading the body. -/
structure HttpResponse where
  StatusCode : Nat
  Body : Except GoError Bytes

/-- The outcomes the collaborators deliver during one call of `Geturl`. -/
structure GeturlEnv where
  /-- Failure of the datastore query, if any. -/
  queryErr : Option GoError
  /-- Clock reading taken by `time.Since(cached.Time)`. -/
  sinceClock : Time
  /-- Outcome of `client.Get(url)`. -/
  getResult : Except GoError HttpResponse
  /-- Clock reading taken by `time.Now()` when the new entity is built. -/
  nowClock : Time
  /-- Id the datastore allocates when `Put` receives an incomplete key. -/
  newID : Key
  /-- Failure of `datastore.Put`, if any (the write is then not applied). -/
  putErr : Option GoError

/-- The calls `Geturl` makes into the datastore and the HTTP client (logging
and the deferred closing of the body are left out). -/
inductive Effect where
  | dsQuery (url : String)
  | httpGet (url : String)
  | readBody
  | dsPut (key : Key) (c : webCache)
  deriving DecidableEq, Repr

/-- Whether an effect is a remote GET. -/
def Effect.isGet : Effect → Bool
  | Effect.httpGet _ => true
  | _ => false

/-- Number of remote GETs in a trace. -/
def remoteGets (tr : List Effect) : Nat := tr.countP Effect.isGet

/-- What a call of `Geturl` leaves behind: the two return values, the
datastore after the call and the calls made. -/
structure GeturlResult where
  content : Bytes
  err : Option GoError
  store : Datastore
  trace : List Effect
  deriving DecidableEq, Repr

/-- The part of `Geturl` after the cache read (geturl.go lines 40-74): the
request, reading the body and writing the result to the cache.  `key` is the
key the lookup returned (`none` for Go's nil).  The trace is that of the whole
call, the datastore query at its head. -/
def fetchAndStore (ds : Datastore) (env : GeturlEnv) (url : String)
    (key : Option Key) : GeturlResult :=
  match env.getResult with
  | Except.error e => ⟨[], some e, ds, [Effect.dsQuery url, Effect.httpGet url]⟩
  | Except.ok resp =>
    match resp.Body with
    | Except.error e =>
      ⟨[], some e, ds, [Effect.dsQuery url, Effect.httpGet url, Effect.readBody]⟩
    | Except.ok body =>
      let key := match key with
        | none => env.newID
        | some k => k
      let c : webCache := ⟨url, body, env.nowClock⟩
      match env.putErr with
      | some e =>
        ⟨[], some e, ds,
          [Effect.dsQuery url, Effect.httpGet url, Effect.readBody, Effect.dsPut key c]⟩
      | none =>
        ⟨body, none, datastorePut ds key c,
          [Effect.dsQuery url, Effect.httpGet url, Effect.readBody, Effect.dsPut key c]⟩

/-- The function `Geturl(ctx, url, ttl)` of geturl.go. -/
def Geturl (ds : Datastore) (env : GeturlEnv) (url : String) (ttl : Duration) :
    GeturlResult :=
  match queryNext ds url env.queryErr with
  | (key, cached, none) =>
    if timeSince env.sinceClock cached.Time ≤ ttl then
      ⟨cached.Content, none, ds, [Effect.dsQuery url]⟩
    else fetchAndStore ds env url key
  | (key, _, some _) => fetchAndStore ds env url key

/-- Two calls `Geturl(url, ttl)` in succession with no other writer in
between: the second call runs on the datastore the first one left. -/
def GeturlTwice (ds : Datastore) (env1 env2 : GeturlEnv) (url : String)
    (ttl : Duration) : GeturlResult × GeturlResult :=
  let r1 := Geturl ds env1 url ttl
  (r1, Geturl r1.store env2 url ttl)

/-- At most one entity per URL. -/
def OnePerURL (ds : Datastore) : Prop :=
  ∀ u : String, ds.countP (fun p => p.2.URL == u) ≤ 1

/-- Every key holds one entity (what the datastore guarantees). -/
def KeysUnique (ds : Datastore) : Prop := (ds.map Prod.fst).Nodup

/-! ## sessions.go -/

/-- Go's `const timeBetweenGC time.Duration = time.Duration(30) * time.Minute`. -/
def timeBetweenGC : Duration := minutes 30

/-- Go's `const session_gc_path = "/sessions/gc"`. -/
def session_gc_path : String := "/sessions/gc"

/-- The parts of an `*http.Request` the package looks at. -/
structure Request where
  /-- Whether `r.TLS` is non-nil. -/
  TLS : Bool
  /-- Value of `r.Header.Get("X-Appengine-QueueName")`. -/
  queueName : String
  /-- The session cookie sent with the request, if any. -/
  cookie : Option String
  deriving DecidableEq, Repr

/-- A `session.Session`: its identifier and its timeout. -/
structure Session where
  id : String
  timeout : Duration
  deriving DecidableEq, Repr

/-- A store factory, the kind of value `ptrNewStoreFunc` points to, known by
its name. -/
abbrev StoreFunc := String

/-- The package variables `WithSession` reads or writes
(`ptrNewStoreFunc`, `lastTimeOfGC`, `sessionTimeout`). -/
structure Globals where
  ptrNewStoreFunc : Option StoreFunc
  lastTimeOfGC : Time
  sessionTimeout : Duration
  deriving DecidableEq, Repr

/-- The calls the session code makes into its collaborators, and the one
assignment to a package variable. -/
inductive SessEffect where
  | logError (msg : String)
  | logDebug (msg : String)
  | httpError (code : Nat)
  /-- Call of `ptrNewStoreFunc(ctx)`. -/
  | newStore (f : StoreFunc)
  /-- Call of `session.NewCookieManagerOptions(store, &options)`. -/
  | newCookieManager (allowHTTP : Bool)
  /-- Call of `sessmgr.Get(r)`. -/
  | mgrGet
  /-- Call of `session.NewSessionOptions(&session.SessOptions{Timeout: ...})`. -/
  | newSession (timeout : Duration)
  /-- Call of `sessmgr.Add(sess, w)`. -/
  | mgrAdd (sess : Session)
  /-- Call of the wrapped handler `h(w, r, sess)`. -/
  | handler (sess : Session)
  /-- The assignment `lastTimeOfGC = time.Now()`. -/
  | setLastTimeOfGC (t : Time)
  /-- Call of `taskqueue.Add(ctx, task, "")` with a POST task for `path`. -/
  | taskqueueAdd (path : String)
  /-- Call of `sessmgr.Close()`. -/
  | mgrClose
  /-- Call of `ptrPurgeExpiredSessFromDSFunc(w, r)`. -/
  | purge (r : Request)
  deriving DecidableEq, Repr

/-- How a call of the wrapped handler ends: the status code it wrote, if any,
and whether it panicked. -/
structure HandlerOutcome where
  Code : Option Nat
  panics : Bool
  deriving DecidableEq, Repr

/-- Go's `type HandlerFuncWithSession func(http.ResponseWriter, *http.Request, session.Session)`,
by what a call does to the response. -/
abbrev HandlerFuncWithSession := Request → Session → HandlerOutcome

/-- The outcomes the collaborators deliver during one request to a wrapped
handler. -/
structure SessionEnv where
  /-- Result of `sessmgr.Get(r)`: the session the cookie resolves to, if any. -/
  current : Option Session
  /-- Identifier given to a session created by `session.NewSessionOptions`. -/
  freshID : String
  /-- Clock reading taken by `time.Since(lastTimeOfGC)`. -/
  sinceClock : Time
  /-- Clock reading taken by `time.Now()` in `lastTimeOfGC = time.Now()`. -/
  nowClock : Time
  deriving DecidableEq, Repr

/-- What one request leaves behind: the status code written (`none` when
nothing was written, which a client sees as 200), the package variables, the
calls made and whether the call panicked. -/
structure SessResult where
  Code : Option Nat
  globals : Globals
  trace : List SessEffect
  panicked : Bool
  deriving DecidableEq, Repr

/-- The statements of `WithSession` after `defer sessmgr.Close()`
(sessions.go lines 47-62): resolve or create the session, run the handler,
then the garbage-collection check.  A panic of the handler ends the body. -/
def sessionBody (h : HandlerFuncWithSession) (g : Globals) (env : SessionEnv)
    (r : Request) : SessResult :=
  let sess : Session := match env.current with
    | some s => s
    | none => ⟨env.freshID, g.sessionTimeout⟩
  let resolve : List SessEffect := match env.current with
    | some _ => [SessEffect.mgrGet]
    | none => [SessEffect.mgrGet, SessEffect.newSession g.sessionTimeout, SessEffect.mgrAdd sess]
  let out := h r sess
  if out.panics then
    ⟨out.Code, g, resolve ++ [SessEffect.handler sess], true⟩
  else if timeSince env.sinceClock g.lastTimeOfGC > timeBetweenGC then
    ⟨out.Code, { g with lastTimeOfGC := env.nowClock },
      resolve ++ [SessEffect.handler sess, SessEffect.setLastTimeOfGC env.nowClock,
        SessEffect.taskqueueAdd session_gc_path], false⟩
  else
    ⟨out.Code, g, resolve ++ [SessEffect.handler sess], false⟩

/-- The statements of `WithSession` from the creation of the session manager
on (sessions.go lines 43-62): the manager is created, `sessmgr.Close()` is
deferred and so runs when the body is left, by return or by panic. -/
def withManager (h : HandlerFuncWithSession) (g : Globals) (env : SessionEnv)
    (r : Request) (f : StoreFunc) (allowHTTP : Bool) : SessResult :=
  let b := sessionBody h g env r
  { b with
    trace := [SessEffect.newStore f, SessEffect.newCookieManager allowHTTP] ++ b.trace
      ++ [SessEffect.mgrClose] }

/-- The handler `WithSession(h)` of sessions.go, applied to a request `r` with
a fresh response writer.  `dev` is `appengine.IsDevAppServer()`. -/
def WithSession (h : HandlerFuncWithSession) (dev : Bool) (g : Globals)
    (env : SessionEnv) (r : Request) : SessResult :=
  match g.ptrNewStoreFunc with
  | none =>
    ⟨some 500, g,
      [SessEffect.logError "ptrNewStoreFunc is unset; Can't create sessions.",
        SessEffect.httpError 500], false⟩
  | some f =>
    if dev then withManager h g env r f true
    else if r.TLS = false then
      ⟨some 403, g,
        [SessEffect.logError "Can't use session cookies over http.",
          SessEffect.httpError 403], false⟩
    else withManager h g env r f false

/-- One request: the wrapped handler it is routed to, the outcomes the
collaborators deliver while it is handled, and the request itself. -/
abbrev Arrival := HandlerFuncWithSession × SessionEnv × Request

/-- Requests handled one after the other by `WithSession` handlers: each
request starts from the package variables the previous one left.  The result
is the final package variables and the results of the requests, in order. -/
def serve (dev : Bool) : Globals → List Arrival → Globals × List SessResult
  | g, [] => (g, [])
  | g, (h, env, r) :: rest =>
    let res := WithSession h dev g env r
    let out := serve dev res.globals rest
    (out.1, res :: out.2)

/-- The instants written to `lastTimeOfGC` in a trace: one per dispatch of a
garbage-collection task. -/
def dispatchTimes : List SessEffect → List Time
  | [] => []
  | SessEffect.setLastTimeOfGC t :: rest => t :: dispatchTimes rest
  | _ :: rest => dispatchTimes rest

/-- Number of garbage-collection tasks added to the task queue in a trace. -/
def dispatches (tr : List SessEffect) : Nat :=
  tr.count (SessEffect.taskqueueAdd session_gc_path)

/-- The calls made by a sequence of requests, in order. -/
def traceOf : List SessResult → List SessEffect
  | [] => []
  | res :: rest => res.trace ++ traceOf rest

/-- The clock readings delivered to a sequence of requests, in the order in
which they are taken. -/
def clockReadings : List Arrival → List Time
  | [] => []
  | (_, env, _) :: rest => env.sinceClock :: env.nowClock :: clockReadings rest

/-- A purge function, the kind of value `ptrPurgeExpiredSessFromDSFunc`
points to: given the request and the stored sessions it leaves the remaining
sessions and the status code it wrote, if any. -/
abbrev PurgeFunc (σ : Type) := Request → σ → σ × Option Nat

/-- What a request to the garbage-collection endpoint leaves behind. -/
structure GCResult (σ : Type) where
  Code : Option Nat
  sessions : σ
  trace : List SessEffect

/-- The handler `sessionGarbageCollectionWrapper` of sessions.go, applied to a
request `r` with a fresh response writer; `s` is the stored sessions. -/
def sessionGarbageCollectionWrapper {σ : Type}
    (ptrPurgeExpiredSessFromDSFunc : Option (PurgeFunc σ)) (dev : Bool)
    (r : Request) (s : σ) : GCResult σ :=
  if r.queueName ≠ "" || dev then
    match ptrPurgeExpiredSessFromDSFunc with
    | some f =>
      ⟨(f r s).2, (f r s).1,
        [SessEffect.logDebug "Session garbage collection", SessEffect.purge r]⟩
    | none => ⟨none, s, [SessEffect.logError "Session purge func ptr is not set."]⟩
  else ⟨some 403, s, [SessEffect.httpError 403]⟩

/-! ## Geturl: the cache read -/

theorem queryNext_found {ds : Datastore} {url : String} {qe : Option GoError}
    {k : Key} {c : webCache} (h : queryNext ds url qe = (some k, c, none)) :
    qe = none ∧ ds.find? (fun p => p.2.URL == url) = some (k, c) := by
  unfold queryNext at h
  cases qe with
  | some e => simp at h
  | none =>
    refine ⟨rfl, ?_⟩
    cases hf : ds.find? (fun p => p.2.URL == url) with
    | none => simp [hf] at h
    | some p =>
      obtain ⟨k', c'⟩ := p
      simp [hf] at h
      obtain ⟨h1, h2⟩ := h
      subst h1; subst h2; rfl

theorem Geturl_hit {ds : Datastore} {env : GeturlEnv} {url : String} {ttl : Duration}
    {k : Key} {c : webCache} (h : queryNext ds url env.queryErr = (some k, c, none))
    (hage : timeSince env.sinceClock c.Time ≤ ttl) :
    Geturl ds env url ttl = ⟨c.Content, none, ds, [Effect.dsQuery url]⟩ := by
  unfold Geturl
  rw [h]
  simp [hage]

theorem Geturl_stale {ds : Datastore} {env : GeturlEnv} {url : String} {ttl : Duration}
    {k : Key} {c : webCache} (h : queryNext ds url env.queryErr = (some k, c, none))
    (hage : ttl < timeSince env.sinceClock c.Time) :
    Geturl ds env url ttl = fetchAndStore ds env url (some k) := by
  unfold Geturl
  rw [h]
  simp [not_le.mpr hage]

theorem Geturl_absent {ds : Datastore} {env : GeturlEnv} {url : String} {ttl : Duration}
    {key : Option Key} {c : webCache} {e : GoError}
    (h : queryNext ds url env.queryErr = (key, c, some e)) :
    Geturl ds env url ttl = fetchAndStore ds env url key := by
  unfold Geturl
  rw [h]

theorem fetchAndStore_getErr {ds : Datastore} {env : GeturlEnv} {url : String}
    {key : Option Key} {e : GoError} (hg : env.getResult = Except.error e) :
    fetchAndStore ds env url key =
      ⟨[], some e, ds, [Effect.dsQuery url, Effect.httpGet url]⟩ := by
  simp [fetchAndStore, hg]

theorem fetchAndStore_readErr {ds : Datastore} {env : GeturlEnv} {url : String}
    {key : Option Key} {resp : HttpResponse} {e : GoError}
    (hg : env.getResult = Except.ok resp) (hb : resp.Body = Except.error e) :
    fetchAndStore ds env url key =
      ⟨[], some e, ds, [Effect.dsQuery url, Effect.httpGet url, Effect.readBody]⟩ := by
  simp [fetchAndStore, hg, hb]

theorem fetchAndStore_putErr {ds : Datastore} {env : GeturlEnv} {url : String}
    {key : Option Key} {resp : HttpResponse} {body : Bytes} {e : GoError}
    (hg : env.getResult = Except.ok resp) (hb : resp.Body = Except.ok body)
    (hp : env.putErr = some e) :
    fetchAndStore ds env url key =
      ⟨[], some e, ds,
        [Effect.dsQuery url, Effect.httpGet url, Effect.readBody,
          Effect.dsPut (key.getD env.newID) ⟨url, body, env.nowClock⟩]⟩ := by
  cases key <;> simp [fetchAndStore, hg, hb, hp]

theorem fetchAndStore_ok {ds : Datastore} {env : GeturlEnv} {url : String}
    {key : Option Key} {resp : HttpResponse} {body : Bytes}
    (hg : env.getResult = Except.ok resp) (hb : resp.Body = Except.ok body)
    (hp : env.putErr = none) :
    fetchAndStore ds env url key =
      ⟨body, none, datastorePut ds (key.getD env.newID) ⟨url, body, env.nowClock⟩,
        [Effect.dsQuery url, Effect.httpGet url, Effect.readBody,
          Effect.dsPut (key.getD env.newID) ⟨url, body, env.nowClock⟩]⟩ := by
  cases key <;> simp [fetchAndStore, hg, hb, hp]

/-- The four ways the fetch path can end. -/
theorem fetchAndStore_cases (ds : Datastore) (env : GeturlEnv) (url : String)
    (key : Option Key) :
    (∃ e, env.getResult = Except.error e ∧
      fetchAndStore ds env url key =
        ⟨[], some e, ds, [Effect.dsQuery url, Effect.httpGet url]⟩) ∨
    (∃ resp e, env.getResult = Except.ok resp ∧ resp.Body = Except.error e ∧
      fetchAndStore ds env url key =
        ⟨[], some e, ds, [Effect.dsQuery url, Effect.httpGet url, Effect.readBody]⟩) ∨
    (∃ resp body e, env.getResult = Except.ok resp ∧ resp.Body = Except.ok body ∧
      env.putErr = some e ∧
      fetchAndStore ds env url key =
        ⟨[], some e, ds,
          [Effect.dsQuery url, Effect.httpGet url, Effect.readBody,
            Effect.dsPut (key.getD env.newID) ⟨url, body, env.nowClock⟩]⟩) ∨
    (∃ resp body, env.getResult = Except.ok resp ∧ resp.Body = Except.ok body ∧
      env.putErr = none ∧
      fetchAndStore ds env url key =
        ⟨body, none, datastorePut ds (key.getD env.newID) ⟨url, body, env.nowClock⟩,
          [Effect.dsQuery url, Effect.httpGet url, Effect.readBody,
            Effect.dsPut (key.getD env.newID) ⟨url, body, env.nowClock⟩]⟩) := by
  cases hg : env.getResult with
  | error e => exact Or.inl ⟨e, rfl, fetchAndStore_getErr hg⟩
  | ok resp =>
    cases hb : resp.Body with
    | error e => exact Or.inr (Or.inl ⟨resp, e, rfl, hb, fetchAndStore_readErr hg hb⟩)
    | ok body =>
      cases hp : env.putErr with
      | some e =>
        exact Or.inr (Or.inr (Or.inl ⟨resp, body, e, rfl, hb, rfl, fetchAndStore_putErr hg hb hp⟩))
      | none =>
        exact Or.inr (Or.inr (Or.inr ⟨resp, body, rfl, hb, rfl, fetchAndStore_ok hg hb hp⟩))

theorem fetchAndStore_gets (ds : Datastore) (env : GeturlEnv) (url : String)
    (key : Option Key) : remoteGets (fetchAndStore ds env url key).trace = 1 := by
  rcases fetchAndStore_cases ds env url key with
    ⟨e, _, h⟩ | ⟨resp, e, _, _, h⟩ | ⟨resp, body, e, _, _, _, h⟩ | ⟨resp, body, _, _, _, h⟩ <;>
  · rw [h]; rfl

/-! ## The datastore: reading back what was put -/

theorem find_replace_found (ds : Datastore) (url : String) (k : Key) (c c' : webCache)
    (hc : c'.URL = url)
    (h : ds.find? (fun p => p.2.URL == url) = some (k, c)) :
    (ds.map (fun p => if p.1 == k then (k, c') else p)).find? (fun p => p.2.URL == url)
      = some (k, c') := by
  induction ds with
  | nil => simp at h
  | cons p ps ih =>
    rw [List.find?_cons] at h
    rw [List.map_cons, List.find?_cons]
    by_cases hk : p.1 = k
    · simp [hk, hc]
    · cases hp : (p.2.URL == url) with
      | true =>
        rw [hp] at h
        simp only [Option.some.injEq] at h
        exact absurd (by rw [h]) hk
      | false =>
        rw [hp] at h
        have hf : (if (p.1 == k) = true then (k, c') else p) = p := by simp [hk]
        simp only [hf, hp]
        exact ih h

theorem any_key_of_find {ds : Datastore} {url : String} {k : Key} {c : webCache}
    (h : ds.find? (fun p => p.2.URL == url) = some (k, c)) :
    ds.any (fun p => p.1 == k) = true := by
  have hm := List.mem_of_find?_eq_some h
  rw [List.any_eq_true]
  exact ⟨(k, c), hm, by simp⟩

theorem url_of_find {ds : Datastore} {url : String} {k : Key} {c : webCache}
    (h : ds.find? (fun p => p.2.URL == url) = some (k, c)) : c.URL = url := by
  have := List.find?_some h
  simpa using this

/-- Reading back after an overwrite: the lookup that found `(k, c)` finds the
new entity under the same key. -/
theorem find_put_found {ds : Datastore} {url : String} {k : Key} {c : webCache}
    (body : Bytes) (t : Time)
    (h : ds.find? (fun p => p.2.URL == url) = some (k, c)) :
    (datastorePut ds k ⟨url, body, t⟩).find? (fun p => p.2.URL == url)
      = some (k, ⟨url, body, t⟩) := by
  unfold datastorePut
  rw [if_pos (any_key_of_find h)]
  exact find_replace_found ds url k c ⟨url, body, t⟩ rfl h

theorem find_replace_absent (ds : Datastore) (url : String) (k : Key) (c' : webCache)
    (hc : c'.URL = url)
    (h : ds.find? (fun p => p.2.URL == url) = none)
    (hany : ds.any (fun p => p.1 == k) = true) :
    (ds.map (fun p => if p.1 == k then (k, c') else p)).find? (fun p => p.2.URL == url)
      = some (k, c') := by
  induction ds with
  | nil => simp at hany
  | cons p ps ih =>
    rw [List.find?_cons] at h
    rw [List.map_cons, List.find?_cons]
    by_cases hk : p.1 = k
    · simp [hk, hc]
    · cases hp : (p.2.URL == url) with
      | true => rw [hp] at h; simp at h
      | false =>
        rw [hp] at h
        have hany' : ps.any (fun p => p.1 == k) = true := by
          simpa [List.any_cons, hk] using hany
        have hf : (if (p.1 == k) = true then (k, c') else p) = p := by simp [hk]
        simp only [hf, hp]
        exact ih h hany'

/-- Reading back after an insert: when the lookup found nothing, it finds the
new entity afterwards. -/
theorem find_put_absent {ds : Datastore} {url : String} (k : Key)
    (body : Bytes) (t : Time)
    (h : ds.find? (fun p => p.2.URL == url) = none) :
    (datastorePut ds k ⟨url, body, t⟩).find? (fun p => p.2.URL == url)
      = some (k, ⟨url, body, t⟩) := by
  unfold datastorePut
  by_cases hany : ds.any (fun p => p.1 == k) = true
  · rw [if_pos hany]
    exact find_replace_absent ds url k ⟨url, body, t⟩ rfl h hany
  · rw [if_neg hany, List.find?_append, h]
    simp

/-- An overwrite keeps the keys of the store as they are. -/
theorem keys_put_found {ds : Datastore} {url : String} {k : Key} {c : webCache}
    (c' : webCache) (h : ds.find? (fun p => p.2.URL == url) = some (k, c)) :
    (datastorePut ds k c').map Prod.fst = ds.map Prod.fst := by
  unfold datastorePut
  rw [if_pos (any_key_of_find h), List.map_map]
  apply List.map_congr_left
  intro p _
  by_cases hk : p.1 = k <;> simp [hk]

/-! ## Geturl: the two paths -/

/-- A call is either served from the cache or takes the fetch path with the
key the lookup returned. -/
theorem Geturl_cases (ds : Datastore) (env : GeturlEnv) (url : String) (ttl : Duration) :
    (∃ k c, queryNext ds url env.queryErr = (some k, c, none) ∧
      timeSince env.sinceClock c.Time ≤ ttl ∧
      Geturl ds env url ttl = ⟨c.Content, none, ds, [Effect.dsQuery url]⟩) ∨
    Geturl ds env url ttl = fetchAndStore ds env url (queryNext ds url env.queryErr).1 := by
  rcases hq : queryNext ds url env.queryErr with ⟨key, c, err⟩
  cases err with
  | some e => exact Or.inr (Geturl_absent hq)
  | none =>
    cases key with
    | none =>
      exfalso
      unfold queryNext at hq
      cases hqe : env.queryErr with
      | some e => simp [hqe] at hq
      | none =>
        rw [hqe] at hq
        cases hf : ds.find? (fun p => p.2.URL == url) with
        | none => simp [hf] at hq
        | some p => simp [hf] at hq
    | some k =>
      by_cases hage : timeSince env.sinceClock c.Time ≤ ttl
      · exact Or.inl ⟨k, c, rfl, hage, Geturl_hit hq hage⟩
      · exact Or.inr (Geturl_stale hq (not_le.mp hage))

/-- A call that performs a remote GET took the fetch path. -/
theorem Geturl_of_get {ds : Datastore} {env : GeturlEnv} {url : String} {ttl : Duration}
    (hget : remoteGets (Geturl ds env url ttl).trace = 1) :
    Geturl ds env url ttl = fetchAndStore ds env url (queryNext ds url env.queryErr).1 := by
  rcases Geturl_cases ds env url ttl with ⟨k, c, _, _, h⟩ | h
  · rw [h] at hget
    simp [remoteGets, Effect.isGet] at hget
  · exact h

theorem timeSince_pos {now t : Time} (h : t < now) : 0 < timeSince now t := by
  unfold timeSince timeSub maxDuration minDuration
  simp only [Time, Duration] at *
  split_ifs <;> omega

theorem timeSince_nonpos {now t : Time} (h : now ≤ t) : timeSince now t ≤ 0 := by
  unfold timeSince timeSub maxDuration minDuration
  simp only [Time, Duration] at *
  split_ifs <;> omega

/-- Saturation does not lift an age above a bound it is below, when the bound
is a duration. -/
theorem timeSince_le_of_sub_le {now t : Time} {d : Duration} (hd : minDuration ≤ d)
    (h : now - t ≤ d) : timeSince now t ≤ d := by
  unfold timeSince timeSub
  unfold minDuration at hd
  unfold maxDuration minDuration
  simp only [Time, Duration] at *
  split_ifs <;> omega

theorem sub_gt_of_timeSince_gt {now t : Time} (h : timeBetweenGC < timeSince now t) :
    timeBetweenGC < now - t := by
  unfold timeSince timeSub maxDuration minDuration at h
  unfold timeBetweenGC minutes at h ⊢
  simp only [Time, Duration] at *
  split_ifs at h <;> omega

/-! ## Geturl: claims -/

/-- C1: when the lookup for `url` finds an entry whose age `time.Since(entry.Time)`
is at most `ttl`, `Geturl` returns that entry's stored `Content` with a nil
error, performs no remote GET (its only call is the datastore query) and leaves
the store unchanged.  In particular, when any payload `p` is put into the found
entity out-of-band (same key, URL and timestamp), the call returns `p`, again
without a remote GET. -/
theorem Geturl_fresh_entry_served (ds : Datastore) (env : GeturlEnv) (url : String)
    (ttl : Duration) (k : Key) (c : webCache)
    (hfound : queryNext ds url env.queryErr = (some k, c, none))
    (hage : timeSince env.sinceClock c.Time ≤ ttl) :
    (Geturl ds env url ttl).content = c.Content ∧
    (Geturl ds env url ttl).err = none ∧
    remoteGets (Geturl ds env url ttl).trace = 0 ∧
    (Geturl ds env url ttl).trace = [Effect.dsQuery url] ∧
    (Geturl ds env url ttl).store = ds ∧
    ∀ p : Bytes,
      (Geturl (datastorePut ds k ⟨url, p, c.Time⟩) env url ttl).content = p ∧
      (Geturl (datastorePut ds k ⟨url, p, c.Time⟩) env url ttl).err = none ∧
      remoteGets (Geturl (datastorePut ds k ⟨url, p, c.Time⟩) env url ttl).trace = 0 := by
  refine ⟨?_, ?_, ?_, ?_, ?_, ?_⟩
  · rw [Geturl_hit hfound hage]
  · rw [Geturl_hit hfound hage]
  · rw [Geturl_hit hfound hage]; rfl
  · rw [Geturl_hit hfound hage]
  · rw [Geturl_hit hfound hage]
  · intro p
    obtain ⟨hqe, hfind⟩ := queryNext_found hfound
    have hq : queryNext (datastorePut ds k ⟨url, p, c.Time⟩) url env.queryErr
        = (some k, ⟨url, p, c.Time⟩, none) := by
      rw [hqe]
      simp only [queryNext]
      rw [find_put_found p c.Time hfind]
    have hage' : timeSince env.sinceClock (webCache.mk url p c.Time).Time ≤ ttl := hage
    rw [Geturl_hit hq hage']
    exact ⟨rfl, rfl, rfl⟩

/-- Witness for C1: the store holds the payload `[1, 2, 3, 4]` for the URL,
written 500 ns before the call, and the TTL is five minutes. -/
theorem Geturl_fresh_entry_served_witness :
    (Geturl [(7, ⟨"http://www.uio.no", [1, 2, 3, 4], 1000⟩)]
        ⟨none, 1500, Except.ok ⟨200, Except.ok [9]⟩, 1600, 8, none⟩
        "http://www.uio.no" (minutes 5)).content = [1, 2, 3, 4] ∧
    remoteGets (Geturl [(7, ⟨"http://www.uio.no", [1, 2, 3, 4], 1000⟩)]
        ⟨none, 1500, Except.ok ⟨200, Except.ok [9]⟩, 1600, 8, none⟩
        "http://www.uio.no" (minutes 5)).trace = 0 := by
  have h := Geturl_fresh_entry_served [(7, ⟨"http://www.uio.no", [1, 2, 3, 4], 1000⟩)]
    ⟨none, 1500, Except.ok ⟨200, Except.ok [9]⟩, 1600, 8, none⟩
    "http://www.uio.no" (minutes 5) 7 ⟨"http://www.uio.no", [1, 2, 3, 4], 1000⟩
    (by decide) (by decide)
  exact ⟨h.1, h.2.2.1⟩

/-- C2, counterexample: the stored entry for the URL is stale (age 1000 ns,
TTL 10 ns) and the remote GET delivers the body `[9]`.  When the datastore
write fails, the call performs the GET, yet the stored entry is not
overwritten (the store is as before) and the returned content is empty, not
the fetched body; the store is also left as it was when the GET itself fails.
When the datastore lookup fails, and the GET and the write succeed, the stale
entry is not overwritten either: the fetched body goes under the new key 8,
and a lookup afterwards still finds the stale entity under key 7. -/
theorem Geturl_stale_refetch_counterexample :
    queryNext [(7, ⟨"u", [1], 0⟩)] "u" none = (some 7, ⟨"u", [1], 0⟩, none) ∧
    (10 : Duration) < timeSince 1000 0 ∧
    (Geturl [(7, ⟨"u", [1], 0⟩)]
      ⟨none, 1000, Except.ok ⟨200, Except.ok [9]⟩, 1001, 8, some GoError.datastore⟩
      "u" 10).store = [(7, ⟨"u", [1], 0⟩)] ∧
    (Geturl [(7, ⟨"u", [1], 0⟩)]
      ⟨none, 1000, Except.ok ⟨200, Except.ok [9]⟩, 1001, 8, some GoError.datastore⟩
      "u" 10).content ≠ [9] ∧
    (Geturl [(7, ⟨"u", [1], 0⟩)]
      ⟨none, 1000, Except.error GoError.transport, 1001, 8, none⟩
      "u" 10).store = [(7, ⟨"u", [1], 0⟩)] ∧
    (Geturl [(7, ⟨"u", [1], 0⟩)]
      ⟨some GoError.datastore, 1000, Except.ok ⟨200, Except.ok [9]⟩, 1001, 8, none⟩
      "u" 10).store = [(7, ⟨"u", [1], 0⟩), (8, ⟨"u", [9], 1001⟩)] ∧
    queryNext (Geturl [(7, ⟨"u", [1], 0⟩)]
      ⟨some GoError.datastore, 1000, Except.ok ⟨200, Except.ok [9]⟩, 1001, 8, none⟩
      "u" 10).store "u" none = (some 7, ⟨"u", [1], 0⟩, none) := by
  decide

/-- C2, amended: when the stored entry for `url` (the one a lookup returns) has
age strictly greater than `ttl`, `Geturl` performs one remote GET, whatever the
outcome of its datastore lookup, and never returns the stale payload: it
returns either the freshly fetched body with a nil error or empty content with
an error, and in the latter case the store is as before.  When the datastore
lookup does not fail and the GET, the reading of the body and the datastore
write all succeed, the stored entry is overwritten under the same key (no key
is added) with `Content` the fetched body and `Time` the clock reading, a
lookup afterwards finds exactly that entity, and the fetched body is
returned. -/
theorem Geturl_stale_refetch (ds : Datastore) (env : GeturlEnv) (url : String)
    (ttl : Duration) (k : Key) (c : webCache)
    (hstored : ds.find? (fun p => p.2.URL == url) = some (k, c))
    (hage : ttl < timeSince env.sinceClock c.Time) :
    remoteGets (Geturl ds env url ttl).trace = 1 ∧
    (env.queryErr = none →
      ∀ resp body, env.getResult = Except.ok resp → resp.Body = Except.ok body →
      env.putErr = none →
        (Geturl ds env url ttl).content = body ∧
        (Geturl ds env url ttl).err = none ∧
        (Geturl ds env url ttl).store = datastorePut ds k ⟨url, body, env.nowClock⟩ ∧
        (Geturl ds env url ttl).store.map Prod.fst = ds.map Prod.fst ∧
        queryNext (Geturl ds env url ttl).store url none
          = (some k, ⟨url, body, env.nowClock⟩, none)) ∧
    ((Geturl ds env url ttl).err ≠ none →
      (Geturl ds env url ttl).content = [] ∧ (Geturl ds env url ttl).store = ds) ∧
    ((Geturl ds env url ttl).err = none →
      ∃ resp, env.getResult = Except.ok resp ∧
        resp.Body = Except.ok (Geturl ds env url ttl).content) := by
  -- whatever the lookup delivers, the call takes the fetch path
  have hpath : ∃ key, Geturl ds env url ttl = fetchAndStore ds env url key ∧
      (env.queryErr = none → key = some k) := by
    cases hqe : env.queryErr with
    | some e =>
      have hq : queryNext ds url env.queryErr = (none, webCache.zero, some e) := by
        rw [hqe]; rfl
      exact ⟨none, Geturl_absent hq, by intro h; simp at h⟩
    | none =>
      have hq : queryNext ds url env.queryErr = (some k, c, none) := by
        rw [hqe]
        simp only [queryNext]
        rw [hstored]
      exact ⟨some k, Geturl_stale hq hage, fun _ => rfl⟩
  obtain ⟨key, hG, hkey⟩ := hpath
  rw [hG]
  refine ⟨fetchAndStore_gets _ _ _ _, ?_, ?_, ?_⟩
  · intro hqe resp body hg hb hp
    rw [hkey hqe, fetchAndStore_ok hg hb hp]
    refine ⟨rfl, rfl, rfl, keys_put_found _ hstored, ?_⟩
    simp only [Option.getD_some, queryNext]
    rw [find_put_found body env.nowClock hstored]
  · intro herr
    rcases fetchAndStore_cases ds env url key with
      ⟨e, _, h⟩ | ⟨resp, e, _, _, h⟩ | ⟨resp, body, e, _, _, _, h⟩ | ⟨resp, body, _, _, _, h⟩
    · rw [h]; exact ⟨rfl, rfl⟩
    · rw [h]; exact ⟨rfl, rfl⟩
    · rw [h]; exact ⟨rfl, rfl⟩
    · rw [h] at herr; exact absurd rfl herr
  · intro herr
    rcases fetchAndStore_cases ds env url key with
      ⟨e, _, h⟩ | ⟨resp, e, _, _, h⟩ | ⟨resp, body, e, _, _, _, h⟩ | ⟨resp, body, hg, hb, _, h⟩
    · rw [h] at herr; simp at herr
    · rw [h] at herr; simp at herr
    · rw [h] at herr; simp at herr
    · rw [h]; exact ⟨resp, hg, hb⟩

/-- Witness for C2 (amended): a stale entry `[1]` is replaced by the fetched
body `[9]` under the same key 7. -/
theorem Geturl_stale_refetch_witness :
    (Geturl [(7, ⟨"u", [1], 0⟩)] ⟨none, 1000, Except.ok ⟨200, Except.ok [9]⟩, 1001, 8, none⟩
      "u" 10).content = [9] ∧
    (Geturl [(7, ⟨"u", [1], 0⟩)] ⟨none, 1000, Except.ok ⟨200, Except.ok [9]⟩, 1001, 8, none⟩
      "u" 10).store = datastorePut [(7, ⟨"u", [1], 0⟩)] 7 ⟨"u", [9], 1001⟩ := by
  have h := (Geturl_stale_refetch [(7, ⟨"u", [1], 0⟩)]
    ⟨none, 1000, Except.ok ⟨200, Except.ok [9]⟩, 1001, 8, none⟩ "u" 10 7 ⟨"u", [1], 0⟩
    (by decide) (by decide)).2.1 rfl ⟨200, Except.ok [9]⟩ [9] rfl rfl rfl
  exact ⟨h.1, h.2.2.1⟩

/-- C8, counterexample: with `ttl = 0`, an entry whose timestamp equals the
clock reading (age 0), or lies after it (age negative), is served from the
cache: the stored payload `[1, 2, 3, 4]` is returned and no remote GET is
performed, although the remote side would deliver `[9]`. -/
theorem Geturl_ttl_zero_counterexample :
    (Geturl [(7, ⟨"u", [1, 2, 3, 4], 1000⟩)]
      ⟨none, 1000, Except.ok ⟨200, Except.ok [9]⟩, 1001, 8, none⟩ "u" 0)
      = ⟨[1, 2, 3, 4], none, [(7, ⟨"u", [1, 2, 3, 4], 1000⟩)], [Effect.dsQuery "u"]⟩ ∧
    remoteGets (Geturl [(7, ⟨"u", [1, 2, 3, 4], 1000⟩)]
      ⟨none, 1000, Except.ok ⟨200, Except.ok [9]⟩, 1001, 8, none⟩ "u" 0).trace = 0 ∧
    (Geturl [(7, ⟨"u", [1, 2, 3, 4], 2000⟩)]
      ⟨none, 1000, Except.ok ⟨200, Except.ok [9]⟩, 1001, 8, none⟩ "u" 0)
      = ⟨[1, 2, 3, 4], none, [(7, ⟨"u", [1, 2, 3, 4], 2000⟩)], [Effect.dsQuery "u"]⟩ := by
  decide

/-- C8, amended: `Geturl` called with `ttl = 0` performs a remote GET and
returns no cached content (its result is that of the fetch path, which does not
see the cached entity) whenever the lookup finds no entry, fails, or finds an
entry whose timestamp is strictly before the current time.  An entry whose
timestamp is at or after the current time is served from the cache without a
remote GET. -/
theorem Geturl_ttl_zero (ds : Datastore) (env : GeturlEnv) (url : String)
    (key : Option Key) (c : webCache) (err : Option GoError)
    (hq : queryNext ds url env.queryErr = (key, c, err)) :
    (err ≠ none ∨ c.Time < env.sinceClock →
      remoteGets (Geturl ds env url 0).trace = 1 ∧
      Geturl ds env url 0 = fetchAndStore ds env url key) ∧
    (err = none ∧ env.sinceClock ≤ c.Time →
      remoteGets (Geturl ds env url 0).trace = 0 ∧
      Geturl ds env url 0 = ⟨c.Content, none, ds, [Effect.dsQuery url]⟩) := by
  constructor
  · intro h
    have hf : Geturl ds env url 0 = fetchAndStore ds env url key := by
      cases err with
      | some e => exact Geturl_absent hq
      | none =>
        rcases h with h | h
        · exact absurd rfl h
        · unfold Geturl
          rw [hq]
          simp [not_le.mpr (timeSince_pos h)]
    exact ⟨by rw [hf]; exact fetchAndStore_gets _ _ _ _, hf⟩
  · rintro ⟨he, ht⟩
    subst he
    have hf : Geturl ds env url 0 = ⟨c.Content, none, ds, [Effect.dsQuery url]⟩ := by
      unfold Geturl
      rw [hq]
      simp [timeSince_nonpos ht]
    exact ⟨by rw [hf]; rfl, hf⟩

/-- Witness for C8 (amended): an entry written 1 ns before the call is not
served with `ttl = 0`; the fetched body `[9]` is returned. -/
theorem Geturl_ttl_zero_witness :
    remoteGets (Geturl [(7, ⟨"u", [1, 2, 3, 4], 999⟩)]
      ⟨none, 1000, Except.ok ⟨200, Except.ok [9]⟩, 1001, 8, none⟩ "u" 0).trace = 1 ∧
    (Geturl [(7, ⟨"u", [1, 2, 3, 4], 999⟩)]
      ⟨none, 1000, Except.ok ⟨200, Except.ok [9]⟩, 1001, 8, none⟩ "u" 0).content = [9] := by
  have h := (Geturl_ttl_zero [(7, ⟨"u", [1, 2, 3, 4], 999⟩)]
    ⟨none, 1000, Except.ok ⟨200, Except.ok [9]⟩, 1001, 8, none⟩ "u"
    (some 7) ⟨"u", [1, 2, 3, 4], 999⟩ none (by decide)).1 (Or.inr (by decide))
  exact ⟨h.1, by rw [h.2]; decide⟩

/-- C4, counterexample: the remote side answers with status 500 (a non-success
HTTP status) and the body `[5]`.  `Geturl` returns a nil error and the body,
and the response is written to the store: the store, empty before, holds an
entry for the URL afterwards. -/
theorem Geturl_fetch_failure_counterexample :
    (Geturl [] ⟨none, 1000, Except.ok ⟨500, Except.ok [5]⟩, 1001, 8, none⟩ "u" 10).err = none ∧
    (Geturl [] ⟨none, 1000, Except.ok ⟨500, Except.ok [5]⟩, 1001, 8, none⟩ "u" 10).content
      = [5] ∧
    (Geturl [] ⟨none, 1000, Except.ok ⟨500, Except.ok [5]⟩, 1001, 8, none⟩ "u" 10).store
      = [(8, ⟨"u", [5], 1001⟩)] ∧
    (Geturl [] ⟨none, 1000, Except.ok ⟨500, Except.ok [5]⟩, 1001, 8, none⟩ "u" 10).store
      ≠ [] := by
  decide

/-- C4, amended: when a call of `Geturl` performs the remote GET and the GET
fails (`client.Get` returns an error) or reading the body fails, `Geturl`
returns that error with empty content, makes no datastore write and leaves the
store exactly as it was.  The HTTP status is not looked at: a response whose
body is read is stored and returned with a nil error whatever its status
code. -/
theorem Geturl_fetch_failure (ds : Datastore) (env : GeturlEnv) (url : String)
    (ttl : Duration) (hget : remoteGets (Geturl ds env url ttl).trace = 1) :
    (∀ e, env.getResult = Except.error e →
      (Geturl ds env url ttl).err = some e ∧ (Geturl ds env url ttl).content = [] ∧
      (Geturl ds env url ttl).store = ds ∧
      ∀ key c, Effect.dsPut key c ∉ (Geturl ds env url ttl).trace) ∧
    (∀ resp e, env.getResult = Except.ok resp → resp.Body = Except.error e →
      (Geturl ds env url ttl).err = some e ∧ (Geturl ds env url ttl).content = [] ∧
      (Geturl ds env url ttl).store = ds ∧
      ∀ key c, Effect.dsPut key c ∉ (Geturl ds env url ttl).trace) ∧
    (∀ resp body, env.getResult = Except.ok resp → resp.Body = Except.ok body →
      env.putErr = none →
      (Geturl ds env url ttl).err = none ∧ (Geturl ds env url ttl).content = body ∧
      (Geturl ds env url ttl).store
        = datastorePut ds ((queryNext ds url env.queryErr).1.getD env.newID)
            ⟨url, body, env.nowClock⟩) := by
  rw [Geturl_of_get hget]
  refine ⟨?_, ?_, ?_⟩
  · intro e hg
    rw [fetchAndStore_getErr hg]
    exact ⟨rfl, rfl, rfl, by intro key c; simp⟩
  · intro resp e hg hb
    rw [fetchAndStore_readErr hg hb]
    exact ⟨rfl, rfl, rfl, by intro key c; simp⟩
  · intro resp body hg hb hp
    rw [fetchAndStore_ok hg hb hp]
    exact ⟨rfl, rfl, rfl⟩

/-- Witness for C4 (amended): a stale entry and a failing GET; the error is
returned and the store keeps the stale entry. -/
theorem Geturl_fetch_failure_witness :
    (Geturl [(7, ⟨"u", [1], 0⟩)] ⟨none, 1000, Except.error GoError.transport, 1001, 8, none⟩
      "u" 10).err = some GoError.transport ∧
    (Geturl [(7, ⟨"u", [1], 0⟩)] ⟨none, 1000, Except.error GoError.transport, 1001, 8, none⟩
      "u" 10).store = [(7, ⟨"u", [1], 0⟩)] := by
  have h := (Geturl_fetch_failure [(7, ⟨"u", [1], 0⟩)]
    ⟨none, 1000, Except.error GoError.transport, 1001, 8, none⟩ "u" 10 (by decide)).1
    GoError.transport rfl
  exact ⟨h.1, h.2.2.1⟩

/-- C3, counterexample: the store already holds a fresh entry for the URL
(written at 1000, TTL 500).  Two calls in succession, 50 ns apart, are both
served from the cache: together they perform no remote GET, not one.  And on
an empty store, when the GET of the first call fails, the second call performs
a remote GET of its own. -/
theorem GeturlTwice_counterexample :
    (1150 : Int) - 1100 < 500 ∧
    remoteGets
      ((GeturlTwice [(7, ⟨"u", [1, 2, 3, 4], 1000⟩)]
          ⟨none, 1100, Except.ok ⟨200, Except.ok [9]⟩, 1101, 8, none⟩
          ⟨none, 1150, Except.ok ⟨200, Except.ok [9]⟩, 1151, 9, none⟩ "u" 500).1.trace ++
       (GeturlTwice [(7, ⟨"u", [1, 2, 3, 4], 1000⟩)]
          ⟨none, 1100, Except.ok ⟨200, Except.ok [9]⟩, 1101, 8, none⟩
          ⟨none, 1150, Except.ok ⟨200, Except.ok [9]⟩, 1151, 9, none⟩ "u" 500).2.trace) = 0 ∧
    remoteGets
      ((GeturlTwice [(7, ⟨"u", [1, 2, 3, 4], 1000⟩)]
          ⟨none, 1100, Except.ok ⟨200, Except.ok [9]⟩, 1101, 8, none⟩
          ⟨none, 1150, Except.ok ⟨200, Except.ok [9]⟩, 1151, 9, none⟩ "u" 500).1.trace ++
       (GeturlTwice [(7, ⟨"u", [1, 2, 3, 4], 1000⟩)]
          ⟨none, 1100, Except.ok ⟨200, Except.ok [9]⟩, 1101, 8, none⟩
          ⟨none, 1150, Except.ok ⟨200, Except.ok [9]⟩, 1151, 9, none⟩ "u" 500).2.trace) ≠ 1 ∧
    remoteGets
      (GeturlTwice [] ⟨none, 1100, Except.error GoError.transport, 1101, 8, none⟩
        ⟨none, 1150, Except.ok ⟨200, Except.ok [9]⟩, 1151, 9, none⟩ "u" 500).2.trace = 1 := by
  decide

/-- C3, amended: `Geturl(url, ttl)` is called twice in succession with no
other writer in between and with datastore lookups that do not fail; the first
call is not served from the cache (it performs a remote GET) and returns a nil
error; the clock does not run backwards and the time elapsed from the start
`t1` of the first call to the second call is less than `ttl`.  Then the two
calls together perform exactly one remote GET, the second call performs none,
returns a nil error and returns content identical to what the first call
returned. -/
theorem GeturlTwice_one_fetch (ds : Datastore) (env1 env2 : GeturlEnv) (url : String)
    (ttl : Duration) (t1 : Time)
    (hq1 : env1.queryErr = none) (hq2 : env2.queryErr = none)
    (hget : remoteGets (GeturlTwice ds env1 env2 url ttl).1.trace = 1)
    (hok : (GeturlTwice ds env1 env2 url ttl).1.err = none)
    (hstart : t1 ≤ env1.nowClock) (hmono : t1 ≤ env2.sinceClock)
    (helapsed : env2.sinceClock - t1 < ttl) :
    remoteGets ((GeturlTwice ds env1 env2 url ttl).1.trace ++
      (GeturlTwice ds env1 env2 url ttl).2.trace) = 1 ∧
    remoteGets (GeturlTwice ds env1 env2 url ttl).2.trace = 0 ∧
    (GeturlTwice ds env1 env2 url ttl).2.err = none ∧
    (GeturlTwice ds env1 env2 url ttl).2.content
      = (GeturlTwice ds env1 env2 url ttl).1.content := by
  simp only [GeturlTwice] at hget hok ⊢
  have hf := Geturl_of_get hget
  rw [hf] at hok
  -- the first call ended with a successful write
  obtain ⟨resp, body, hg, hb, hp, h1⟩ :
      ∃ resp body, env1.getResult = Except.ok resp ∧ resp.Body = Except.ok body ∧
        env1.putErr = none ∧
        fetchAndStore ds env1 url (queryNext ds url env1.queryErr).1 =
          ⟨body, none,
            datastorePut ds ((queryNext ds url env1.queryErr).1.getD env1.newID)
              ⟨url, body, env1.nowClock⟩,
            [Effect.dsQuery url, Effect.httpGet url, Effect.readBody,
              Effect.dsPut ((queryNext ds url env1.queryErr).1.getD env1.newID)
                ⟨url, body, env1.nowClock⟩]⟩ := by
    rcases fetchAndStore_cases ds env1 url (queryNext ds url env1.queryErr).1 with
      ⟨e, _, h⟩ | ⟨resp, e, _, _, h⟩ | ⟨resp, body, e, _, _, _, h⟩ | ⟨resp, body, hg, hb, hp, h⟩
    · rw [h] at hok; simp at hok
    · rw [h] at hok; simp at hok
    · rw [h] at hok; simp at hok
    · exact ⟨resp, body, hg, hb, hp, h⟩
  -- the second lookup finds what the first call wrote
  have hfind : ∃ k, queryNext
      (datastorePut ds ((queryNext ds url env1.queryErr).1.getD env1.newID)
        ⟨url, body, env1.nowClock⟩) url env2.queryErr
      = (some k, ⟨url, body, env1.nowClock⟩, none) := by
    rw [hq1, hq2]
    cases hfd : ds.find? (fun p => p.2.URL == url) with
    | none =>
      refine ⟨env1.newID, ?_⟩
      simp only [queryNext, hfd, Option.getD_none]
      rw [find_put_absent env1.newID body env1.nowClock hfd]
    | some p =>
      obtain ⟨k, c⟩ := p
      refine ⟨k, ?_⟩
      simp only [queryNext, hfd, Option.getD_some]
      rw [find_put_found body env1.nowClock hfd]
  obtain ⟨k, hk⟩ := hfind
  have hage : timeSince env2.sinceClock env1.nowClock ≤ ttl := by
    apply timeSince_le_of_sub_le
    · unfold minDuration
      simp only [Time, Duration] at *
      omega
    · simp only [Time, Duration] at *
      omega
  rw [hf, h1]
  simp only
  rw [Geturl_hit hk hage]
  exact ⟨rfl, rfl, rfl, rfl⟩

/-- Witness for C3 (amended): an empty store, a first call that fetches `[9]`
and a second call 50 ns later with a TTL of 500 ns. -/
theorem GeturlTwice_one_fetch_witness :
    (GeturlTwice [] ⟨none, 1100, Except.ok ⟨200, Except.ok [9]⟩, 1101, 8, none⟩
      ⟨none, 1150, Except.ok ⟨200, Except.ok [4]⟩, 1151, 9, none⟩ "u" 500).2.content
      = (GeturlTwice [] ⟨none, 1100, Except.ok ⟨200, Except.ok [9]⟩, 1101, 8, none⟩
      ⟨none, 1150, Except.ok ⟨200, Except.ok [4]⟩, 1151, 9, none⟩ "u" 500).1.content ∧
    remoteGets (GeturlTwice [] ⟨none, 1100, Except.ok ⟨200, Except.ok [9]⟩, 1101, 8, none⟩
      ⟨none, 1150, Except.ok ⟨200, Except.ok [4]⟩, 1151, 9, none⟩ "u" 500).2.trace = 0 := by
  have h := GeturlTwice_one_fetch []
    ⟨none, 1100, Except.ok ⟨200, Except.ok [9]⟩, 1101, 8, none⟩
    ⟨none, 1150, Except.ok ⟨200, Except.ok [4]⟩, 1151, 9, none⟩ "u" 500 1100
    rfl rfl (by decide) (by decide) (by decide) (by decide) (by decide)
  exact ⟨h.2.2.2, h.2.1⟩

/-! ## Geturl: at most one entry per URL -/

theorem put_replace_urls {ds : Datastore} {url : String} {k : Key} {c : webCache}
    (c' : webCache) (hc : c'.URL = url) (hkeys : KeysUnique ds)
    (h : ds.find? (fun p => p.2.URL == url) = some (k, c)) :
    (datastorePut ds k c').map (fun p => p.2.URL) = ds.map (fun p => p.2.URL) := by
  have hmem := List.mem_of_find?_eq_some h
  have hurl := url_of_find h
  unfold datastorePut
  rw [if_pos (any_key_of_find h), List.map_map]
  apply List.map_congr_left
  intro p hp
  by_cases hk : p.1 = k
  · have hpe : p = (k, c) := List.inj_on_of_nodup_map hkeys hp hmem (by simpa using hk)
    simp [hpe, hc, hurl]
  · simp [hk]

theorem onePerURL_of_urls {ds ds' : Datastore}
    (h : ds'.map (fun p => p.2.URL) = ds.map (fun p => p.2.URL)) (hone : OnePerURL ds) :
    OnePerURL ds' := by
  intro u
  have e1 : ds'.countP (fun p => p.2.URL == u)
      = (ds'.map (fun p => p.2.URL)).countP (fun x => x == u) := by
    rw [List.countP_map]; rfl
  have e2 : ds.countP (fun p => p.2.URL == u)
      = (ds.map (fun p => p.2.URL)).countP (fun x => x == u) := by
    rw [List.countP_map]; rfl
  rw [e1, h, ← e2]
  exact hone u

theorem put_fresh {ds : Datastore} {k : Key} (c' : webCache)
    (hfresh : k ∉ ds.map Prod.fst) : datastorePut ds k c' = ds ++ [(k, c')] := by
  unfold datastorePut
  rw [if_neg]
  intro hany
  rw [List.any_eq_true] at hany
  obtain ⟨p, hp, hk⟩ := hany
  apply hfresh
  rw [List.mem_map]
  exact ⟨p, hp, by simpa using hk⟩

theorem onePerURL_insert {ds : Datastore} {url : String} (k : Key) (c' : webCache)
    (hc : c'.URL = url) (hone : OnePerURL ds)
    (h : ds.find? (fun p => p.2.URL == url) = none) :
    OnePerURL (ds ++ [(k, c')]) := by
  intro u
  rw [List.countP_append]
  by_cases hu : url = u
  · subst hu
    have h0 : ds.countP (fun p => p.2.URL == url) = 0 := by
      rw [List.countP_eq_zero]
      intro p hp
      have := List.find?_eq_none.mp h p hp
      simpa using this
    rw [h0]
    simp [List.countP_cons]
    split_ifs
    omega
  · have h1 : [(k, c')].countP (fun p => p.2.URL == u) = 0 := by
      rw [List.countP_eq_zero]
      intro p hp
      simp only [List.mem_singleton] at hp
      subst hp
      simp [hc, hu]
    rw [h1]
    exact hone u

/-- C9, counterexample: the store holds one entry for the URL, under key 7.
The datastore query fails (an outcome of the lookup other than "found" and
"not found"), so `Geturl` proceeds with a nil key; the GET and the write
succeed and the new entity is inserted under the newly allocated key 8.  The
store then holds two entries for the URL. -/
theorem Geturl_one_entry_per_url_counterexample :
    OnePerURL [(7, ⟨"u", [1], 0⟩)] ∧
    (Geturl [(7, ⟨"u", [1], 0⟩)]
      ⟨some GoError.datastore, 1000, Except.ok ⟨200, Except.ok [9]⟩, 1001, 8, none⟩
      "u" 10).store = [(7, ⟨"u", [1], 0⟩), (8, ⟨"u", [9], 1001⟩)] ∧
    ¬ OnePerURL (Geturl [(7, ⟨"u", [1], 0⟩)]
      ⟨some GoError.datastore, 1000, Except.ok ⟨200, Except.ok [9]⟩, 1001, 8, none⟩
      "u" 10).store := by
  refine ⟨?_, by decide, ?_⟩
  · intro u
    exact le_trans (List.countP_le_length _) (by simp)
  · intro h
    have h2 := h "u"
    revert h2
    decide

/-- C9, amended: for every store holding at most one `webCache` entry per URL
(and one entity per key), and every call `Geturl(url, ttl)` whose datastore
query does not fail, with any outcome of the remote GET and of the store
write, the resulting store still holds at most one entry per URL and one
entity per key.  When an entry for `url` exists, every write goes to its key
and the keys of the store are unchanged (update in place); when none exists,
every write goes to the newly allocated key, and the store either is unchanged
or gains exactly that key. -/
theorem Geturl_one_entry_per_url (ds : Datastore) (env : GeturlEnv) (url : String)
    (ttl : Duration) (hkeys : KeysUnique ds) (hone : OnePerURL ds)
    (hq : env.queryErr = none) (hfresh : env.newID ∉ ds.map Prod.fst) :
    OnePerURL (Geturl ds env url ttl).store ∧
    KeysUnique (Geturl ds env url ttl).store ∧
    (∀ k c, ds.find? (fun p => p.2.URL == url) = some (k, c) →
      (Geturl ds env url ttl).store.map Prod.fst = ds.map Prod.fst ∧
      ∀ key c', Effect.dsPut key c' ∈ (Geturl ds env url ttl).trace → key = k) ∧
    (ds.find? (fun p => p.2.URL == url) = none →
      ((Geturl ds env url ttl).store = ds ∨
        (Geturl ds env url ttl).store.map Prod.fst = ds.map Prod.fst ++ [env.newID]) ∧
      ∀ key c', Effect.dsPut key c' ∈ (Geturl ds env url ttl).trace → key = env.newID) := by
  rcases Geturl_cases ds env url ttl with ⟨k, c, _, _, h⟩ | h
  · rw [h]
    refine ⟨hone, hkeys, ?_, ?_⟩
    · intro k c _
      exact ⟨rfl, by intro key c' hm; simp at hm⟩
    · intro _
      exact ⟨Or.inl rfl, by intro key c' hm; simp at hm⟩
  · rw [h, hq]
    rcases fetchAndStore_cases ds env url (queryNext ds url none).1 with
      ⟨e, _, h'⟩ | ⟨resp, e, _, _, h'⟩ | ⟨resp, body, e, _, _, _, h'⟩ | ⟨resp, body, _, _, _, h'⟩
    · rw [h']
      refine ⟨hone, hkeys, ?_, ?_⟩
      · intro k c _
        exact ⟨rfl, by intro key c' hm; simp at hm⟩
      · intro _
        exact ⟨Or.inl rfl, by intro key c' hm; simp at hm⟩
    · rw [h']
      refine ⟨hone, hkeys, ?_, ?_⟩
      · intro k c _
        exact ⟨rfl, by intro key c' hm; simp at hm⟩
      · intro _
        exact ⟨Or.inl rfl, by intro key c' hm; simp at hm⟩
    · rw [h']
      refine ⟨hone, hkeys, ?_, ?_⟩
      · intro k c hf
        refine ⟨rfl, ?_⟩
        intro key c' hm
        simp [queryNext, hf] at hm
        exact hm.1
      · intro hf
        refine ⟨Or.inl rfl, ?_⟩
        intro key c' hm
        simp [queryNext, hf] at hm
        exact hm.1
    · rw [h']
      cases hf : ds.find? (fun p => p.2.URL == url) with
      | some p =>
        obtain ⟨k, c⟩ := p
        have hkey : (queryNext ds url none).1 = some k := by simp [queryNext, hf]
        rw [hkey]
        simp only [Option.getD_some]
        refine ⟨onePerURL_of_urls (put_replace_urls _ rfl hkeys hf) hone, ?_, ?_, ?_⟩
        · unfold KeysUnique
          rw [keys_put_found _ hf]
          exact hkeys
        · intro k2 c2 h2
          simp only [Option.some.injEq, Prod.mk.injEq] at h2
          refine ⟨keys_put_found _ hf, ?_⟩
          intro key c' hm
          simp at hm
          rw [hm.1, h2.1]
        · intro h2
          simp at h2
      | none =>
        have hkey : (queryNext ds url none).1 = none := by simp [queryNext, hf]
        rw [hkey]
        simp only [Option.getD_none]
        rw [put_fresh _ hfresh]
        refine ⟨onePerURL_insert _ _ rfl hone hf, ?_, ?_, ?_⟩
        · unfold KeysUnique
          rw [List.map_append, List.map_cons, List.map_nil]
          refine List.Nodup.append hkeys (List.nodup_singleton _) ?_
          intro a ha hb
          simp only [List.mem_singleton] at hb
          subst hb
          exact hfresh ha
        · intro k2 c2 h2
          simp at h2
        · intro _
          refine ⟨Or.inr (by simp), ?_⟩
          intro key c' hm
          simp at hm
          exact hm.1

/-- Witness for C9 (amended): a store with one stale entry for the URL; the
refetch overwrites it in place and the store still holds one entry per URL. -/
theorem Geturl_one_entry_per_url_witness :
    OnePerURL (Geturl [(7, ⟨"u", [1], 0⟩)]
      ⟨none, 1000, Except.ok ⟨200, Except.ok [9]⟩, 1001, 8, none⟩ "u" 10).store ∧
    (Geturl [(7, ⟨"u", [1], 0⟩)]
      ⟨none, 1000, Except.ok ⟨200, Except.ok [9]⟩, 1001, 8, none⟩ "u" 10).store
      = [(7, ⟨"u", [9], 1001⟩)] := by
  have h := Geturl_one_entry_per_url [(7, ⟨"u", [1], 0⟩)]
    ⟨none, 1000, Except.ok ⟨200, Except.ok [9]⟩, 1001, 8, none⟩ "u" 10
    (by unfold KeysUnique; decide)
    (fun u => le_trans (List.countP_le_length _) (by simp)) rfl (by decide)
  exact ⟨h.1, by decide⟩

/-! ## WithSession: one request -/

theorem dispatchTimes_append (a b : List SessEffect) :
    dispatchTimes (a ++ b) = dispatchTimes a ++ dispatchTimes b := by
  induction a with
  | nil => rfl
  | cons x xs ih => cases x <;> simp [dispatchTimes, ih]

/-- The shape of the body: the session is resolved or created, the handler is
called, and the garbage-collection check follows unless the handler panicked. -/
theorem sessionBody_shape (h : HandlerFuncWithSession) (g : Globals) (env : SessionEnv)
    (r : Request) :
    ∃ sess pre post, (sessionBody h g env r).trace = pre ++ SessEffect.handler sess :: post ∧
      SessEffect.mgrClose ∉ pre ∧ SessEffect.mgrClose ∉ post ∧
      SessEffect.httpError 403 ∉ pre ∧ SessEffect.httpError 403 ∉ post ∧
      (sessionBody h g env r).panicked = (h r sess).panics ∧
      (sessionBody h g env r).Code = (h r sess).Code := by
  unfold sessionBody
  cases hcur : env.current with
  | some s =>
    by_cases hp : (h r s).panics = true
    · exact ⟨s, [SessEffect.mgrGet], [], by simp [hp], by simp, by simp, by simp, by simp,
        by simp [hp], by simp [hp]⟩
    · by_cases hgc : timeSince env.sinceClock g.lastTimeOfGC > timeBetweenGC
      · exact ⟨s, [SessEffect.mgrGet],
          [SessEffect.setLastTimeOfGC env.nowClock, SessEffect.taskqueueAdd session_gc_path],
          by simp [hp, hgc], by simp, by simp, by simp, by simp, by simp [hp, hgc],
          by simp [hp, hgc]⟩
      · exact ⟨s, [SessEffect.mgrGet], [], by simp [hp, hgc], by simp, by simp, by simp,
          by simp, by simp [hp, hgc], by simp [hp, hgc]⟩
  | none =>
    by_cases hp : (h r ⟨env.freshID, g.sessionTimeout⟩).panics = true
    · exact ⟨⟨env.freshID, g.sessionTimeout⟩,
        [SessEffect.mgrGet, SessEffect.newSession g.sessionTimeout,
          SessEffect.mgrAdd ⟨env.freshID, g.sessionTimeout⟩], [],
        by simp [hp], by simp, by simp, by simp, by simp, by simp [hp], by simp [hp]⟩
    · by_cases hgc : timeSince env.sinceClock g.lastTimeOfGC > timeBetweenGC
      · exact ⟨⟨env.freshID, g.sessionTimeout⟩,
          [SessEffect.mgrGet, SessEffect.newSession g.sessionTimeout,
            SessEffect.mgrAdd ⟨env.freshID, g.sessionTimeout⟩],
          [SessEffect.setLastTimeOfGC env.nowClock, SessEffect.taskqueueAdd session_gc_path],
          by simp [hp, hgc], by simp, by simp, by simp, by simp, by simp [hp, hgc],
          by simp [hp, hgc]⟩
      · exact ⟨⟨env.freshID, g.sessionTimeout⟩,
          [SessEffect.mgrGet, SessEffect.newSession g.sessionTimeout,
            SessEffect.mgrAdd ⟨env.freshID, g.sessionTimeout⟩], [],
          by simp [hp, hgc], by simp, by simp, by simp, by simp, by simp [hp, hgc],
          by simp [hp, hgc]⟩

/-- The garbage-collection check of the body: either nothing is dispatched and
the package variables are untouched, or the age of `lastTimeOfGC` exceeds
`timeBetweenGC`, `lastTimeOfGC` is set to the clock reading and one task is
dispatched. -/
theorem sessionBody_gc (h : HandlerFuncWithSession) (g : Globals) (env : SessionEnv)
    (r : Request) :
    ((sessionBody h g env r).globals = g ∧
      dispatchTimes (sessionBody h g env r).trace = [] ∧
      dispatches (sessionBody h g env r).trace = 0) ∨
    (timeBetweenGC < timeSince env.sinceClock g.lastTimeOfGC ∧
      (sessionBody h g env r).globals = { g with lastTimeOfGC := env.nowClock } ∧
      dispatchTimes (sessionBody h g env r).trace = [env.nowClock] ∧
      dispatches (sessionBody h g env r).trace = 1) := by
  unfold sessionBody
  cases hcur : env.current with
  | some s =>
    by_cases hp : (h r s).panics = true
    · left; simp [hp, dispatchTimes, dispatches]
    · by_cases hgc : timeSince env.sinceClock g.lastTimeOfGC > timeBetweenGC
      · right; simp [hp, hgc, dispatchTimes, dispatches]
      · left; simp [hp, hgc, dispatchTimes, dispatches]
  | none =>
    by_cases hp : (h r ⟨env.freshID, g.sessionTimeout⟩).panics = true
    · left; simp [hp, dispatchTimes, dispatches]
    · by_cases hgc : timeSince env.sinceClock g.lastTimeOfGC > timeBetweenGC
      · right; simp [hp, hgc, dispatchTimes, dispatches]
      · left; simp [hp, hgc, dispatchTimes, dispatches]

theorem withManager_gc (h : HandlerFuncWithSession) (g : Globals) (env : SessionEnv)
    (r : Request) (f : StoreFunc) (a : Bool) :
    ((withManager h g env r f a).globals = g ∧
      dispatchTimes (withManager h g env r f a).trace = [] ∧
      dispatches (withManager h g env r f a).trace = 0) ∨
    (timeBetweenGC < timeSince env.sinceClock g.lastTimeOfGC ∧
      (withManager h g env r f a).globals = { g with lastTimeOfGC := env.nowClock } ∧
      dispatchTimes (withManager h g env r f a).trace = [env.nowClock] ∧
      dispatches (withManager h g env r f a).trace = 1) := by
  have hd : dispatchTimes (withManager h g env r f a).trace
      = dispatchTimes (sessionBody h g env r).trace := by
    simp [withManager, dispatchTimes_append, dispatchTimes]
  have hn : dispatches (withManager h g env r f a).trace
      = dispatches (sessionBody h g env r).trace := by
    simp [withManager, dispatches]
  have hg : (withManager h g env r f a).globals = (sessionBody h g env r).globals := rfl
  rw [hd, hn, hg]
  exact sessionBody_gc h g env r

theorem WithSession_nofactory (h : HandlerFuncWithSession) (dev : Bool) {g : Globals}
    (env : SessionEnv) (r : Request) (hf : g.ptrNewStoreFunc = none) :
    WithSession h dev g env r =
      ⟨some 500, g,
        [SessEffect.logError "ptrNewStoreFunc is unset; Can't create sessions.",
          SessEffect.httpError 500], false⟩ := by
  unfold WithSession
  rw [hf]

theorem WithSession_dev (h : HandlerFuncWithSession) {g : Globals}
    (env : SessionEnv) (r : Request) {f : StoreFunc} (hf : g.ptrNewStoreFunc = some f) :
    WithSession h true g env r = withManager h g env r f true := by
  unfold WithSession
  rw [hf]
  simp

theorem WithSession_insecure (h : HandlerFuncWithSession) {g : Globals}
    (env : SessionEnv) {r : Request} {f : StoreFunc} (hf : g.ptrNewStoreFunc = some f)
    (htls : r.TLS = false) :
    WithSession h false g env r =
      ⟨some 403, g,
        [SessEffect.logError "Can't use session cookies over http.",
          SessEffect.httpError 403], false⟩ := by
  unfold WithSession
  rw [hf]
  simp [htls]

theorem WithSession_secure (h : HandlerFuncWithSession) {g : Globals}
    (env : SessionEnv) {r : Request} {f : StoreFunc} (hf : g.ptrNewStoreFunc = some f)
    (htls : r.TLS = true) :
    WithSession h false g env r = withManager h g env r f false := by
  unfold WithSession
  rw [hf]
  simp [htls]

/-- The garbage-collection check of one request. -/
theorem WithSession_gc (h : HandlerFuncWithSession) (dev : Bool) (g : Globals)
    (env : SessionEnv) (r : Request) :
    ((WithSession h dev g env r).globals = g ∧
      dispatchTimes (WithSession h dev g env r).trace = [] ∧
      dispatches (WithSession h dev g env r).trace = 0) ∨
    (timeBetweenGC < timeSince env.sinceClock g.lastTimeOfGC ∧
      (WithSession h dev g env r).globals = { g with lastTimeOfGC := env.nowClock } ∧
      dispatchTimes (WithSession h dev g env r).trace = [env.nowClock] ∧
      dispatches (WithSession h dev g env r).trace = 1) := by
  rcases Option.eq_none_or_eq_some g.ptrNewStoreFunc with hf | ⟨f, hf⟩
  · rw [WithSession_nofactory h dev env r hf]
    left; simp [dispatchTimes, dispatches]
  · cases dev with
    | true =>
      rw [WithSession_dev h env r hf]
      exact withManager_gc h g env r f true
    | false =>
      cases htls : r.TLS with
      | false =>
        rw [WithSession_insecure h env hf htls]
        left; simp [dispatchTimes, dispatches]
      | true =>
        rw [WithSession_secure h env hf htls]
        exact withManager_gc h g env r f false

/-! ## WithSession: a sequence of requests -/

theorem dispatches_append (a b : List SessEffect) :
    dispatches (a ++ b) = dispatches a + dispatches b := by
  unfold dispatches
  exact List.count_append _ _ _

theorem clock_of_chain : ∀ (reqs : List Arrival),
    List.Chain' (fun a b => a ≤ b) (clockReadings reqs) →
    ∀ p ∈ reqs, p.2.1.sinceClock ≤ p.2.1.nowClock
  | [], _ => by intro p hp; simp at hp
  | (h, env, r) :: rest, hc => by
    intro p hp
    simp only [clockReadings] at hc
    rw [List.chain'_cons] at hc
    rcases List.mem_cons.mp hp with rfl | hp'
    · exact hc.1
    · exact clock_of_chain rest hc.2.tail p hp'

theorem timeBetweenGC_pos : 0 < timeBetweenGC := by
  unfold timeBetweenGC minutes
  norm_num

/-- Every instant written to `lastTimeOfGC` during a run lies more than
`timeBetweenGC` after the value the run started from, and any two of them are
more than `timeBetweenGC` apart. -/
theorem serve_spacing (dev : Bool) :
    ∀ (reqs : List Arrival) (g : Globals),
    (∀ p ∈ reqs, p.2.1.sinceClock ≤ p.2.1.nowClock) →
    List.Pairwise (fun a b => timeBetweenGC < b - a)
      (dispatchTimes (traceOf (serve dev g reqs).2)) ∧
    ∀ t ∈ dispatchTimes (traceOf (serve dev g reqs).2), timeBetweenGC < t - g.lastTimeOfGC
  | [], g, _ => by simp [serve, traceOf, dispatchTimes]
  | (h, env, r) :: rest, g, hclock => by
    have hrest : ∀ p ∈ rest, p.2.1.sinceClock ≤ p.2.1.nowClock :=
      fun p hp => hclock p (List.mem_cons_of_mem _ hp)
    have hhead : env.sinceClock ≤ env.nowClock :=
      hclock (h, env, r) (List.mem_cons_self _ _)
    have ih := serve_spacing dev rest (WithSession h dev g env r).globals hrest
    simp only [serve, traceOf, dispatchTimes_append]
    rcases WithSession_gc h dev g env r with ⟨hg, hd, _⟩ | ⟨hlt, hg, hd, _⟩
    · rw [hd, List.nil_append, hg]
      rw [hg] at ih
      exact ih
    · rw [hd, List.singleton_append]
      have hpos := timeBetweenGC_pos
      have hsub := sub_gt_of_timeSince_gt hlt
      have hlast : (WithSession h dev g env r).globals.lastTimeOfGC = env.nowClock := by
        rw [hg]
      rw [hlast] at ih
      refine ⟨List.pairwise_cons.mpr ⟨ih.2, ih.1⟩, ?_⟩
      intro t ht
      rcases List.mem_cons.mp ht with rfl | ht'
      · simp only [Time, Duration] at *
        omega
      · have := ih.2 t ht'
        simp only [Time, Duration] at *
        omega

theorem serve_dispatches_length (dev : Bool) :
    ∀ (reqs : List Arrival) (g : Globals),
    dispatches (traceOf (serve dev g reqs).2)
      = (dispatchTimes (traceOf (serve dev g reqs).2)).length
  | [], g => by simp [serve, traceOf, dispatchTimes, dispatches]
  | (h, env, r) :: rest, g => by
    have ih := serve_dispatches_length dev rest (WithSession h dev g env r).globals
    simp only [serve, traceOf, dispatchTimes_append, dispatches_append, List.length_append]
    rw [ih]
    rcases WithSession_gc h dev g env r with ⟨_, hd, hn⟩ | ⟨_, _, hd, hn⟩ <;>
    · rw [hd, hn]; rfl

/-- C5: for every sequence of requests handled one after the other by
`WithSession` handlers, with non-decreasing clock readings, any two dispatches
of the garbage-collection task are more than `timeBetweenGC` (30 minutes)
apart, a dispatch being timed by the instant written to `lastTimeOfGC`, of
which there is one per dispatched task.  A request dispatches at most one task;
it dispatches only when `time.Since(lastTimeOfGC) > timeBetweenGC`, and then
sets `lastTimeOfGC` to the clock reading; without a dispatch the package
variables are untouched.  Two consecutive requests whose clock readings are at
most `timeBetweenGC` apart dispatch at most one task together. -/
theorem WithSession_gc_rate_limited (dev : Bool) (g : Globals) (reqs : List Arrival)
    (hclock : List.Chain' (fun a b => a ≤ b) (clockReadings reqs)) :
    List.Pairwise (fun a b => timeBetweenGC < b - a)
      (dispatchTimes (traceOf (serve dev g reqs).2)) ∧
    dispatches (traceOf (serve dev g reqs).2)
      = (dispatchTimes (traceOf (serve dev g reqs).2)).length ∧
    (∀ (h : HandlerFuncWithSession) (g0 : Globals) (env : SessionEnv) (r : Request),
      dispatches (WithSession h dev g0 env r).trace ≤ 1 ∧
      (dispatches (WithSession h dev g0 env r).trace = 1 →
        timeBetweenGC < timeSince env.sinceClock g0.lastTimeOfGC ∧
        (WithSession h dev g0 env r).globals.lastTimeOfGC = env.nowClock ∧
        dispatchTimes (WithSession h dev g0 env r).trace = [env.nowClock]) ∧
      (dispatches (WithSession h dev g0 env r).trace = 0 →
        (WithSession h dev g0 env r).globals = g0)) ∧
    (∀ (g0 : Globals) (h1 h2 : HandlerFuncWithSession) (e1 e2 : SessionEnv)
        (r1 r2 : Request),
      List.Chain' (fun a b => a ≤ b) (clockReadings [(h1, e1, r1), (h2, e2, r2)]) →
      e2.sinceClock - e1.sinceClock ≤ timeBetweenGC →
      dispatches (traceOf (serve dev g0 [(h1, e1, r1), (h2, e2, r2)]).2) ≤ 1) := by
  refine ⟨(serve_spacing dev reqs g (clock_of_chain reqs hclock)).1,
    serve_dispatches_length dev reqs g, ?_, ?_⟩
  · intro h g0 env r
    rcases WithSession_gc h dev g0 env r with ⟨hg, _, hn⟩ | ⟨hlt, hg, hd, hn⟩
    · rw [hn]
      exact ⟨by omega, by intro h1; omega, fun _ => hg⟩
    · rw [hn]
      exact ⟨le_refl _, fun _ => ⟨hlt, by rw [hg], hd⟩, by intro h0; omega⟩
  · intro g0 h1 h2 e1 e2 r1 r2 hc hnear
    have hm : e1.sinceClock ≤ e1.nowClock :=
      clock_of_chain _ hc (h1, e1, r1) (List.mem_cons_self _ _)
    simp only [serve, traceOf, dispatches_append, List.append_nil]
    rcases WithSession_gc h1 dev g0 e1 r1 with ⟨_, _, hn1⟩ | ⟨_, hg1, _, hn1⟩
    · rcases WithSession_gc h2 dev (WithSession h1 dev g0 e1 r1).globals e2 r2 with
        ⟨_, _, hn2⟩ | ⟨_, _, _, hn2⟩ <;>
      omega
    · rcases WithSession_gc h2 dev (WithSession h1 dev g0 e1 r1).globals e2 r2 with
        ⟨_, _, hn2⟩ | ⟨hlt2, _, _, _⟩
      · omega
      · exfalso
        rw [hg1] at hlt2
        have hsub := sub_gt_of_timeSince_gt hlt2
        simp only [Time, Duration] at *
        omega

/-- Witness for C5: three encrypted requests at 0, 10 and 40 minutes, the
first arriving when `lastTimeOfGC` is 31 minutes old: the first and the third
dispatch a task. -/
theorem WithSession_gc_rate_limited_witness :
    List.Pairwise (fun a b => timeBetweenGC < b - a)
      (dispatchTimes (traceOf (serve false
        ⟨some "session.NewMemcacheStore", minutes (-31), minutes 30⟩
        [(fun _ _ => ⟨none, false⟩, ⟨none, "a", minutes 0, minutes 0 + 5⟩, ⟨true, "", none⟩),
         (fun _ _ => ⟨none, false⟩, ⟨none, "b", minutes 10, minutes 10 + 5⟩, ⟨true, "", none⟩),
         (fun _ _ => ⟨none, false⟩, ⟨none, "c", minutes 40, minutes 40 + 5⟩, ⟨true, "", none⟩)]).2))
    ∧
    dispatchTimes (traceOf (serve false
        ⟨some "session.NewMemcacheStore", minutes (-31), minutes 30⟩
        [(fun _ _ => ⟨none, false⟩, ⟨none, "a", minutes 0, minutes 0 + 5⟩, ⟨true, "", none⟩),
         (fun _ _ => ⟨none, false⟩, ⟨none, "b", minutes 10, minutes 10 + 5⟩, ⟨true, "", none⟩),
         (fun _ _ => ⟨none, false⟩, ⟨none, "c", minutes 40, minutes 40 + 5⟩, ⟨true, "", none⟩)]).2)
      = [minutes 0 + 5, minutes 40 + 5] := by
  refine ⟨(WithSession_gc_rate_limited false
    ⟨some "session.NewMemcacheStore", minutes (-31), minutes 30⟩
    [(fun _ _ => ⟨none, false⟩, ⟨none, "a", minutes 0, minutes 0 + 5⟩, ⟨true, "", none⟩),
     (fun _ _ => ⟨none, false⟩, ⟨none, "b", minutes 10, minutes 10 + 5⟩, ⟨true, "", none⟩),
     (fun _ _ => ⟨none, false⟩, ⟨none, "c", minutes 40, minutes 40 + 5⟩, ⟨true, "", none⟩)]
    (by simp [clockReadings, minutes])).1, ?_⟩
  decide

/-! ## The guards -/

/-- C6: a request to `sessionGarbageCollectionWrapper` whose
`X-Appengine-QueueName` header is empty, outside development mode, is answered
403 Forbidden, the purge function is not invoked and the stored sessions are
untouched.  With a non-empty queue header or in development mode the wrapper
writes no 403: the configured purge function is invoked once, with the
request, and the response and the stored sessions are what it leaves (when no
purge function is configured nothing is written and nothing changes).  So the
wrapper answers 403 exactly in the first case, and so does the response as a
whole, a purge function answering 403 of its own accord apart. -/
theorem gc_wrapper_forbidden_iff_untrusted {σ : Type} (purge : Option (PurgeFunc σ))
    (dev : Bool) (r : Request) (s : σ) :
    (r.queueName = "" ∧ dev = false →
      (sessionGarbageCollectionWrapper purge dev r s).Code = some 403 ∧
      (sessionGarbageCollectionWrapper purge dev r s).sessions = s ∧
      ∀ q, SessEffect.purge q ∉ (sessionGarbageCollectionWrapper purge dev r s).trace) ∧
    (r.queueName ≠ "" ∨ dev = true →
      SessEffect.httpError 403 ∉ (sessionGarbageCollectionWrapper purge dev r s).trace ∧
      (∀ f, purge = some f →
        (sessionGarbageCollectionWrapper purge dev r s).trace.count (SessEffect.purge r) = 1 ∧
        (sessionGarbageCollectionWrapper purge dev r s).sessions = (f r s).1 ∧
        (sessionGarbageCollectionWrapper purge dev r s).Code = (f r s).2) ∧
      (purge = none →
        (sessionGarbageCollectionWrapper purge dev r s).Code = none ∧
        (sessionGarbageCollectionWrapper purge dev r s).sessions = s)) ∧
    (SessEffect.httpError 403 ∈ (sessionGarbageCollectionWrapper purge dev r s).trace ↔
      r.queueName = "" ∧ dev = false) ∧
    ((∀ f, purge = some f → (f r s).2 ≠ some 403) →
      ((sessionGarbageCollectionWrapper purge dev r s).Code = some 403 ↔
        r.queueName = "" ∧ dev = false)) := by
  by_cases hq : r.queueName = ""
  · cases dev with
    | false =>
      have hres : sessionGarbageCollectionWrapper purge false r s
          = ⟨some 403, s, [SessEffect.httpError 403]⟩ := by
        simp [sessionGarbageCollectionWrapper, hq]
      rw [hres]
      refine ⟨fun _ => ⟨rfl, rfl, by intro q; simp⟩, ?_, ?_, ?_⟩
      · intro h
        rcases h with h | h
        · exact absurd hq h
        · simp at h
      · simp [hq]
      · intro _
        simp [hq]
    | true =>
      cases purge with
      | none =>
        have hres : sessionGarbageCollectionWrapper (none : Option (PurgeFunc σ)) true r s
            = ⟨none, s, [SessEffect.logError "Session purge func ptr is not set."]⟩ := by
          simp [sessionGarbageCollectionWrapper]
        rw [hres]
        refine ⟨by simp, fun _ => ⟨by simp, by simp, by simp⟩, by simp, by simp⟩
      | some f =>
        have hres : sessionGarbageCollectionWrapper (some f) true r s
            = ⟨(f r s).2, (f r s).1,
                [SessEffect.logDebug "Session garbage collection", SessEffect.purge r]⟩ := by
          simp [sessionGarbageCollectionWrapper]
        rw [hres]
        refine ⟨by simp, fun _ => ⟨by simp, ?_, by simp⟩, by simp, ?_⟩
        · intro f' hf'
          simp only [Option.some.injEq] at hf'
          subst hf'
          exact ⟨by simp [List.count_cons], rfl, rfl⟩
        · intro hne
          simp [hne f rfl]
  · cases purge with
    | none =>
      have hres : sessionGarbageCollectionWrapper (none : Option (PurgeFunc σ)) dev r s
          = ⟨none, s, [SessEffect.logError "Session purge func ptr is not set."]⟩ := by
        simp [sessionGarbageCollectionWrapper, hq]
      rw [hres]
      refine ⟨by simp [hq], fun _ => ⟨by simp, by simp, by simp⟩, by simp [hq], by simp [hq]⟩
    | some f =>
      have hres : sessionGarbageCollectionWrapper (some f) dev r s
          = ⟨(f r s).2, (f r s).1,
              [SessEffect.logDebug "Session garbage collection", SessEffect.purge r]⟩ := by
        simp [sessionGarbageCollectionWrapper, hq]
      rw [hres]
      refine ⟨by simp [hq], fun _ => ⟨by simp, ?_, by simp⟩, by simp [hq], ?_⟩
      · intro f' hf'
        simp only [Option.some.injEq] at hf'
        subst hf'
        exact ⟨by simp [List.count_cons], rfl, rfl⟩
      · intro hne
        simp [hne f rfl, hq]

/-- C7, counterexample: no store factory is configured (`ptrNewStoreFunc` is
nil).  An unencrypted request outside development mode is answered 500, not
403; and in development mode the unencrypted request is rejected as well. -/
theorem WithSession_insecure_counterexample :
    (WithSession (fun _ _ => ⟨none, false⟩) false ⟨none, 0, minutes 30⟩
      ⟨none, "a", 10, 11⟩ ⟨false, "", none⟩).Code = some 500 ∧
    (WithSession (fun _ _ => ⟨none, false⟩) false ⟨none, 0, minutes 30⟩
      ⟨none, "a", 10, 11⟩ ⟨false, "", none⟩).Code ≠ some 403 ∧
    (WithSession (fun _ _ => ⟨none, false⟩) true ⟨none, 0, minutes 30⟩
      ⟨none, "a", 10, 11⟩ ⟨false, "", none⟩).Code = some 500 := by
  decide

/-- C7, amended: for every request handled by a `WithSession`-wrapped handler
whose transport is not encrypted (`r.TLS` is nil): when a store factory is
configured and the process is outside development mode, the response is 403
Forbidden and no state mutation occurs (the only calls are the error log and
`http.Error`: no session store or manager is created, no session resolved or
created, the handler not invoked, no task dispatched, and the package
variables, `lastTimeOfGC` among them, are unchanged); when no store factory is
configured the response is 500, in either mode, again without any state
mutation; in development mode with a store factory configured the request is
not rejected: the manager is created allowing HTTP, the handler is invoked and
the response is the handler's. -/
theorem WithSession_insecure_forbidden (h : HandlerFuncWithSession) (g : Globals)
    (env : SessionEnv) (r : Request) (htls : r.TLS = false) :
    (∀ f, g.ptrNewStoreFunc = some f →
      WithSession h false g env r =
        ⟨some 403, g,
          [SessEffect.logError "Can't use session cookies over http.",
            SessEffect.httpError 403], false⟩) ∧
    (g.ptrNewStoreFunc = none → ∀ dev,
      WithSession h dev g env r =
        ⟨some 500, g,
          [SessEffect.logError "ptrNewStoreFunc is unset; Can't create sessions.",
            SessEffect.httpError 500], false⟩) ∧
    (∀ f, g.ptrNewStoreFunc = some f →
      SessEffect.httpError 403 ∉ (WithSession h true g env r).trace ∧
      SessEffect.newCookieManager true ∈ (WithSession h true g env r).trace ∧
      ∃ sess, SessEffect.handler sess ∈ (WithSession h true g env r).trace ∧
        (WithSession h true g env r).Code = (h r sess).Code) := by
  refine ⟨fun f hf => WithSession_insecure h env hf htls,
    fun hf dev => WithSession_nofactory h dev env r hf, ?_⟩
  intro f hf
  rw [WithSession_dev h env r hf]
  obtain ⟨sess, pre, post, htr, _, _, h1, h2, _, hcode⟩ := sessionBody_shape h g env r
  have hw : (withManager h g env r f true).trace
      = [SessEffect.newStore f, SessEffect.newCookieManager true]
        ++ (pre ++ SessEffect.handler sess :: post) ++ [SessEffect.mgrClose] := by
    simp [withManager, htr]
  rw [hw]
  refine ⟨?_, by simp, sess, by simp, hcode⟩
  simp [h1, h2]

/-- Witness for C7 (amended): an unencrypted request, outside development
mode, with the memcache store factory configured. -/
theorem WithSession_insecure_forbidden_witness :
    WithSession (fun _ _ => ⟨none, false⟩) false
      ⟨some "session.NewMemcacheStore", 0, minutes 30⟩
      ⟨none, "a", minutes 40, minutes 40⟩ ⟨false, "", none⟩ =
        ⟨some 403, ⟨some "session.NewMemcacheStore", 0, minutes 30⟩,
          [SessEffect.logError "Can't use session cookies over http.",
            SessEffect.httpError 403], false⟩ :=
  (WithSession_insecure_forbidden (fun _ _ => ⟨none, false⟩)
    ⟨some "session.NewMemcacheStore", 0, minutes 30⟩
    ⟨none, "a", minutes 40, minutes 40⟩ ⟨false, "", none⟩ rfl).1
    "session.NewMemcacheStore" rfl

/-- C10: for every request to a `WithSession`-wrapped handler that passes the
store-factory check and the transport check, `sessmgr.Close()` is performed
exactly once, as the last call of the request and after the call of the
wrapped handler, whether the handler returns normally or panics (in which
case the request ends panicking). -/
theorem WithSession_close_once (h : HandlerFuncWithSession) (dev : Bool) (g : Globals)
    (env : SessionEnv) (r : Request) (f : StoreFunc)
    (hf : g.ptrNewStoreFunc = some f) (hpass : dev = true ∨ r.TLS = true) :
    (WithSession h dev g env r).trace.count SessEffect.mgrClose = 1 ∧
    ∃ sess pre post,
      (WithSession h dev g env r).trace
        = pre ++ SessEffect.handler sess :: post ++ [SessEffect.mgrClose] ∧
      SessEffect.mgrClose ∉ pre ∧ SessEffect.mgrClose ∉ post ∧
      (WithSession h dev g env r).panicked = (h r sess).panics := by
  have key : ∀ a : Bool,
      (withManager h g env r f a).trace.count SessEffect.mgrClose = 1 ∧
      ∃ sess pre post,
        (withManager h g env r f a).trace
          = pre ++ SessEffect.handler sess :: post ++ [SessEffect.mgrClose] ∧
        SessEffect.mgrClose ∉ pre ∧ SessEffect.mgrClose ∉ post ∧
        (withManager h g env r f a).panicked = (h r sess).panics := by
    intro a
    obtain ⟨sess, pre, post, htr, hpre, hpost, _, _, hpan, _⟩ := sessionBody_shape h g env r
    have hw : (withManager h g env r f a).trace
        = ([SessEffect.newStore f, SessEffect.newCookieManager a] ++ pre)
          ++ SessEffect.handler sess :: post ++ [SessEffect.mgrClose] := by
      simp [withManager, htr]
    have hpre' : SessEffect.mgrClose ∉
        [SessEffect.newStore f, SessEffect.newCookieManager a] ++ pre := by
      simp [hpre]
    refine ⟨?_, sess, _, post, hw, hpre', hpost, hpan⟩
    rw [hw]
    simp only [List.count_append, List.count_cons, List.count_nil]
    rw [List.count_eq_zero_of_not_mem hpre, List.count_eq_zero_of_not_mem hpost]
    simp
  cases dev with
  | true =>
    rw [WithSession_dev h env r hf]
    exact key true
  | false =>
    have htls : r.TLS = true := by
      rcases hpass with hd | ht
      · simp at hd
      · exact ht
    rw [WithSession_secure h env hf htls]
    exact key false

/-- Witness for C10: an encrypted request whose handler panics; `Close` is
still performed, once and last. -/
theorem WithSession_close_once_witness :
    (WithSession (fun _ _ => ⟨none, true⟩) false
      ⟨some "session.NewMemcacheStore", 0, minutes 30⟩
      ⟨none, "a", minutes 40, minutes 40⟩ ⟨true, "", none⟩).trace.count
        SessEffect.mgrClose = 1 ∧
    (WithSession (fun _ _ => ⟨none, true⟩) false
      ⟨some "session.NewMemcacheStore", 0, minutes 30⟩
      ⟨none, "a", minutes 40, minutes 40⟩ ⟨true, "", none⟩).panicked = true :=
  ⟨(WithSession_close_once (fun _ _ => ⟨none, true⟩) false
    ⟨some "session.NewMemcacheStore", 0, minutes 30⟩
    ⟨none, "a", minutes 40, minutes 40⟩ ⟨true, "", none⟩
    "session.NewMemcacheStore" rfl (Or.inr rfl)).1, by decide⟩

end Utility
